import Mathlib

/-!
Verification of the time-series train/test split and forecast-evaluation
harness extracted from `src/auto-ml-energy-demand-forecasting.ipynb`.

The notebook's own logic is tiny: it loads `nyc_energy.csv`, splits the
rows chronologically at the cutoff `2017-02-01` (section 2.2), hands the
training partition to an external AutoML backend, evaluates the test set
with `predict` (section 4.3) and later calls `forecast` with a NaN-filled
query target (section 5).  We embed that logic shallowly: a row carries a
timestamp, the weather feature values, and the `demand` target; `demand =
none` models the demand column having been removed from a frame (pandas
`pop`) or being the NaN "unknown target" sentinel.  Numeric values are
modelled as exact rationals, timestamps as integers.
-/

namespace Demo

/-- One row of `nyc_energy.csv`: the `timeStamp` column (as an integer time
value), the remaining numeric feature columns (`precip`, `temp`, ...), and
the `demand` target column.  `demand = none` models the demand column being
absent (after `pop`) or holding the NaN sentinel. -/
structure Row where
  t : Int
  feat : List ℚ
  demand : Option ℚ
deriving DecidableEq, Repr

/-- Removing the `demand` column from a row (the per-row effect of
`X.pop(target_column_name)` in the notebook). -/
def stripTarget (r : Row) : Row :=
  { r with demand := none }

/-- Re-attaching a popped target series to a feature frame, pairing the
i-th target value with the i-th row (the series returned by pandas `pop`
is index-aligned with the frame it was popped from). -/
def restoreTarget (x : List Row) (y : List (Option ℚ)) : List Row :=
  List.zipWith (fun r v => { r with demand := v }) x y

/-- The four values produced by the split cell (section 2.2 of the
notebook), plus the loaded dataset as it stands after those four
statements have run. -/
structure SplitResult where
  X_train : List Row
  y_train : List (Option ℚ)
  X_test : List Row
  y_test : List (Option ℚ)
  dataAfter : List Row
deriving DecidableEq, Repr

/-- Shallow embedding of the split cell:

```
X_train = data[data[time_column_name] < '2017-02-01']
X_test  = data[data[time_column_name] >= '2017-02-01']
y_train = X_train.pop(target_column_name).values
y_test  = X_test.pop(target_column_name).values
```

Boolean-mask indexing in pandas returns a new data frame, so the two
`pop` calls remove the demand column from those new frames, not from
`data`; hence `dataAfter` is the unchanged input. -/
def split (data : List Row) (cutoff : Int) : SplitResult :=
  let xtr := data.filter (fun r => decide (r.t < cutoff))
  let xte := data.filter (fun r => decide (cutoff ≤ r.t))
  { X_train := xtr.map stripTarget
  , y_train := xtr.map (fun r => r.demand)
  , X_test := xte.map stripTarget
  , y_test := xte.map (fun r => r.demand)
  , dataAfter := data }

/-- Concrete two-row dataset used for counterexamples: one row strictly
before the cutoff `1`, one at it. -/
def exData : List Row :=
  [⟨0, [], some 5⟩, ⟨1, [], some 7⟩]

/-- Concrete dataset whose timestamps all lie at or after the cutoff `0`,
used for the empty-train scenario. -/
def exData6 : List Row :=
  [⟨5, [], some 3⟩, ⟨6, [], some 4⟩]

lemma restore_strip (l : List Row) :
    restoreTarget (l.map stripTarget) (l.map (fun r => r.demand)) = l := by
  induction l with
  | nil => rfl
  | cons a l ih =>
    cases a
    simp only [List.map_cons, restoreTarget, List.zipWith_cons_cons, stripTarget]
    exact congrArg _ ih

lemma filter_lt_append_ge_perm (data : List Row) (c : Int) :
    (data.filter (fun r => decide (r.t < c)) ++
      data.filter (fun r => decide (c ≤ r.t))).Perm data := by
  have he : (fun r : Row => decide (c ≤ r.t)) = fun r : Row => !decide (r.t < c) := by
    funext r
    rw [← decide_not, decide_eq_decide]
    omega
  rw [he]
  exact List.filter_append_perm _ data

lemma split_X_train (data : List Row) (c : Int) :
    (split data c).X_train = (data.filter (fun r => decide (r.t < c))).map stripTarget := rfl

lemma split_y_train (data : List Row) (c : Int) :
    (split data c).y_train = (data.filter (fun r => decide (r.t < c))).map (fun r => r.demand) :=
  rfl

lemma split_X_test (data : List Row) (c : Int) :
    (split data c).X_test = (data.filter (fun r => decide (c ≤ r.t))).map stripTarget := rfl

lemma split_y_test (data : List Row) (c : Int) :
    (split data c).y_test = (data.filter (fun r => decide (c ≤ r.t))).map (fun r => r.demand) :=
  rfl

lemma restore_train (data : List Row) (c : Int) :
    restoreTarget (split data c).X_train (split data c).y_train
      = data.filter (fun r => decide (r.t < c)) := by
  rw [split_X_train, split_y_train, restore_strip]

lemma restore_test (data : List Row) (c : Int) :
    restoreTarget (split data c).X_test (split data c).y_test
      = data.filter (fun r => decide (c ≤ r.t)) := by
  rw [split_X_test, split_y_test, restore_strip]

/-- C1, counterexample: the train partition as the code returns it
(`X_train`, target column popped) together with the eval partition with
its target restored does *not* reconstruct the dataset — the row
`⟨0, [], some 5⟩` is lost, because its `demand` value was popped from
`X_train` as well. -/
theorem split_train_as_returned_loses_rows :
    ¬ (((split exData 1).X_train ++
        restoreTarget (split exData 1).X_test (split exData 1).y_test).Perm exData) := by
  decide

/-- C1 (amended): the train partition *with its target restored* together
with the eval partition with its target restored reconstructs the
dataset's rows exactly: no row lost, no row duplicated (the union is a
permutation of `data`), and no row in both partitions. -/
theorem split_partition_law (data : List Row) (c : Int) :
    (restoreTarget (split data c).X_train (split data c).y_train ++
      restoreTarget (split data c).X_test (split data c).y_test).Perm data ∧
    ∀ r ∈ restoreTarget (split data c).X_train (split data c).y_train,
      r ∉ restoreTarget (split data c).X_test (split data c).y_test := by
  rw [restore_train, restore_test]
  refine ⟨filter_lt_append_ge_perm data c, ?_⟩
  intro r hr hr2
  rw [List.mem_filter] at hr hr2
  have h1 : r.t < c := by simpa using hr.2
  have h2 : c ≤ r.t := by simpa using hr2.2
  omega

theorem split_partition_law_witness :
    (⟨0, [], some 5⟩ : Row) ∉
      restoreTarget (split exData 1).X_test (split exData 1).y_test :=
  (split_partition_law exData 1).2 ⟨0, [], some 5⟩ (by decide)

/-- C2, counterexample: the target column is *not* retained in the train
partition: on the concrete dataset `exData` the single train row comes
back with its `demand` column popped. -/
theorem split_train_target_not_retained :
    ¬ ∀ r ∈ (split exData 1).X_train, (Row.demand r).isSome := by
  decide

/-- C2 (amended): the split assigns a record to train iff its timestamp is
strictly below the cutoff and to eval iff it is at or above it; the target
column is removed from *both* partitions (not retained in train), and the
removed values are kept as separate sequences (`y_train`, `y_test`), each
aligned one-to-one with its feature frame — re-attaching them recovers
exactly the original records of each side. -/
theorem split_semantics (data : List Row) (c : Int) :
    (∀ r ∈ (split data c).X_train, r.demand = none) ∧
    (∀ r ∈ (split data c).X_test, r.demand = none) ∧
    (∀ r ∈ data, r.t < c → stripTarget r ∈ (split data c).X_train) ∧
    (∀ s ∈ (split data c).X_train, ∃ r ∈ data, r.t < c ∧ s = stripTarget r) ∧
    (∀ r ∈ data, c ≤ r.t → stripTarget r ∈ (split data c).X_test) ∧
    (∀ s ∈ (split data c).X_test, ∃ r ∈ data, c ≤ r.t ∧ s = stripTarget r) ∧
    restoreTarget (split data c).X_train (split data c).y_train
      = data.filter (fun r => decide (r.t < c)) ∧
    restoreTarget (split data c).X_test (split data c).y_test
      = data.filter (fun r => decide (c ≤ r.t)) := by
  refine ⟨?_, ?_, ?_, ?_, ?_, ?_, restore_train data c, restore_test data c⟩
  · intro r hr
    rw [split_X_train, List.mem_map] at hr
    obtain ⟨x, _, hx⟩ := hr
    rw [← hx]
    rfl
  · intro r hr
    rw [split_X_test, List.mem_map] at hr
    obtain ⟨x, _, hx⟩ := hr
    rw [← hx]
    rfl
  · intro r hr hlt
    rw [split_X_train, List.mem_map]
    exact ⟨r, List.mem_filter.mpr ⟨hr, by simpa using hlt⟩, rfl⟩
  · intro s hs
    rw [split_X_train, List.mem_map] at hs
    obtain ⟨x, hx, hxe⟩ := hs
    rw [List.mem_filter] at hx
    exact ⟨x, hx.1, by simpa using hx.2, hxe.symm⟩
  · intro r hr hge
    rw [split_X_test, List.mem_map]
    exact ⟨r, List.mem_filter.mpr ⟨hr, by simpa using hge⟩, rfl⟩
  · intro s hs
    rw [split_X_test, List.mem_map] at hs
    obtain ⟨x, hx, hxe⟩ := hs
    rw [List.mem_filter] at hx
    exact ⟨x, hx.1, by simpa using hx.2, hxe.symm⟩

theorem split_semantics_witness :
    stripTarget ⟨0, [], some 5⟩ ∈ (split exData 1).X_train :=
  (split_semantics exData 1).2.2.1 ⟨0, [], some 5⟩ (by decide) (by decide)

/-- C6, counterexample: with the cutoff `0` strictly below every timestamp
of `exData6`, the split does *not* fail: it returns the partitions, with
an empty train frame and every row (target restored) in the eval side —
there is no emptiness check anywhere in the split cell. -/
theorem split_returns_empty_train :
    (split exData6 0).X_train = [] ∧
    restoreTarget (split exData6 0).X_test (split exData6 0).y_test = exData6 := by
  decide

/-- C6 (amended): the split performs no emptiness check and never fails:
a cutoff at or below every timestamp yields an empty train partition with
the whole dataset on the eval side, and a cutoff strictly above every
timestamp yields an empty eval partition with the whole dataset on the
train side; in both cases the partitions are returned, not an error. -/
theorem split_no_emptiness_check (data : List Row) (c : Int) :
    ((∀ r ∈ data, c ≤ r.t) →
      (split data c).X_train = [] ∧
      restoreTarget (split data c).X_test (split data c).y_test = data) ∧
    ((∀ r ∈ data, r.t < c) →
      (split data c).X_test = [] ∧
      restoreTarget (split data c).X_train (split data c).y_train = data) := by
  constructor
  · intro h
    constructor
    · rw [split_X_train, List.filter_eq_nil_iff.mpr ?_, List.map_nil]
      intro r hr
      simpa using Int.not_lt.mpr (h r hr)
    · rw [restore_test, List.filter_eq_self.mpr ?_]
      intro r hr
      simpa using h r hr
  · intro h
    constructor
    · rw [split_X_test, List.filter_eq_nil_iff.mpr ?_, List.map_nil]
      intro r hr
      simpa using Int.not_le.mpr (h r hr)
    · rw [restore_train, List.filter_eq_self.mpr ?_]
      intro r hr
      simpa using h r hr

theorem split_no_emptiness_check_witness :
    (split exData6 10).X_test = [] ∧
    restoreTarget (split exData6 10).X_train (split exData6 10).y_train = exData6 :=
  (split_no_emptiness_check exData6 10).2 (by decide)

/-- C9: the split is pure with respect to the loaded dataset: after the
four split statements run, `data` still holds the same rows, columns
(including the target column) and values as before the call, and the
partitions the split hands back are fully determined by those rows —
re-attaching each popped target series recovers exactly the corresponding
filtered slice of the input. -/
theorem split_pure (data : List Row) (c : Int) :
    (split data c).dataAfter = data ∧
    restoreTarget (split data c).X_train (split data c).y_train
      = data.filter (fun r => decide (r.t < c)) ∧
    restoreTarget (split data c).X_test (split data c).y_test
      = data.filter (fun r => decide (c ≤ r.t)) :=
  ⟨rfl, restore_train data c, restore_test data c⟩

/-! ### Evaluator -/

/-- Failure mode of the evaluator. -/
inductive EvalError where
  | lengthMismatch
deriving DecidableEq, Repr

/-- The per-run evaluation record: residuals plus aggregate metrics.
`r2 = none` models the NaN/undefined R² of a constant actual series;
the RMSE is `Real.sqrt mse` (see `rmse` below). -/
structure EvaluationResult where
  residuals : List ℚ
  mae : ℚ
  mse : ℚ
  r2 : Option ℚ
deriving DecidableEq, Repr

/-- Arithmetic mean of a list of rationals (`0` on the empty list, since
`0 / 0 = 0` in `ℚ`). -/
def mean (l : List ℚ) : ℚ :=
  l.sum / (l.length : ℚ)

/-- The residual series of the notebook (section 4.3):
`y_residual_test = y_test - y_pred_test`, an elementwise difference. -/
def y_residual (actual predicted : List ℚ) : List ℚ :=
  List.zipWith (fun a p => a - p) actual predicted

/-- Total sum of squares of the actual series about its mean (the R²
denominator). -/
def sst (actual : List ℚ) : ℚ :=
  (actual.map (fun a => (a - mean actual) ^ 2)).sum

/-- Modelled from the spec: the Evaluator contract (spec section 4.4).  The
notebook only computes the residual series (`y_residual`, section 4.3);
the aggregate metrics and the length check are not implemented in the
source (the sklearn metric imports are never called), so they are modelled
faithfully from the spec's formulas: MAE = mean |residual|, MSE = mean
residual², R² = 1 − SSR/SST with R² undefined (`none`, i.e. NaN) when the
denominator SST is zero, and a `LengthMismatchError` when the two
sequences disagree in length. -/
def evaluate (actual predicted : List ℚ) : Except EvalError EvaluationResult :=
  if actual.length = predicted.length then
    let res := y_residual actual predicted
    Except.ok
      { residuals := res
      , mae := mean (res.map (fun r => |r|))
      , mse := mean (res.map (fun r => r ^ 2))
      , r2 :=
          if sst actual = 0 then none
          else some (1 - (res.map (fun r => r ^ 2)).sum / sst actual) }
  else
    Except.error EvalError.lengthMismatch

/-- Modelled from the spec: RMSE = sqrt(mean(residual²)) (spec section
4.4); the square root forces the value into the reals. -/
noncomputable def rmse (actual predicted : List ℚ) : ℝ :=
  Real.sqrt ((mean ((y_residual actual predicted).map (fun r => r ^ 2)) : ℚ) : ℝ)

lemma y_residual_self (a : List ℚ) :
    y_residual a a = List.replicate a.length 0 := by
  induction a with
  | nil => rfl
  | cons x l ih =>
    simp only [y_residual, List.zipWith_cons_cons, List.length_cons, List.replicate_succ,
      sub_self] at *
    exact congrArg _ ih

lemma mean_replicate_zero (n : ℕ) : mean (List.replicate n 0) = 0 := by
  simp [mean, List.sum_replicate]

lemma sum_sq_sub_eq_zero {m : ℚ} :
    ∀ {l : List ℚ}, ((l.map (fun x => (x - m) ^ 2)).sum = 0) → ∀ x ∈ l, x = m := by
  intro l
  induction l with
  | nil => simp
  | cons a l ih =>
    intro h x hx
    rw [List.map_cons, List.sum_cons] at h
    have hrest : 0 ≤ (l.map (fun x => (x - m) ^ 2)).sum := by
      apply List.sum_nonneg
      intro y hy
      rw [List.mem_map] at hy
      obtain ⟨z, _, hz⟩ := hy
      rw [← hz]
      positivity
    have ha : (a - m) ^ 2 = 0 := by nlinarith [sq_nonneg (a - m)]
    have hs : (l.map (fun x => (x - m) ^ 2)).sum = 0 := by nlinarith [sq_nonneg (a - m)]
    rcases List.mem_cons.mp hx with h1 | h1
    · rw [h1]
      have := pow_eq_zero_iff (n := 2) (by norm_num) |>.mp ha
      linarith [this]
    · exact ih hs x h1

lemma mean_constant {c : ℚ} {l : List ℚ} (h : ∀ x ∈ l, x = c) (hne : l ≠ []) :
    mean l = c := by
  have hrep : l = List.replicate l.length c := List.eq_replicate_of_mem h
  have hlen : (l.length : ℚ) ≠ 0 :=
    Nat.cast_ne_zero.mpr (List.length_pos.mpr hne).ne'
  rw [mean, hrep]
  simp only [List.sum_replicate, List.length_replicate, nsmul_eq_mul]
  rw [mul_comm, mul_div_assoc, div_self hlen, mul_one]

lemma sst_constant {c : ℚ} {a : List ℚ} (h : ∀ x ∈ a, x = c) : sst a = 0 := by
  rcases eq_or_ne a [] with he | he
  · rw [he]
    rfl
  · rw [sst]
    apply List.sum_eq_zero
    intro x hx
    rw [List.mem_map] at hx
    obtain ⟨z, hz, hze⟩ := hx
    rw [← hze, h z hz, mean_constant h he]
    ring

lemma sst_ne_zero_of_nonconstant {a : List ℚ}
    (h : ¬ ∀ x ∈ a, ∀ y ∈ a, x = y) : sst a ≠ 0 := by
  intro h0
  apply h
  intro x hx y hy
  have hxm := sum_sq_sub_eq_zero h0 x hx
  have hym := sum_sq_sub_eq_zero h0 y hy
  rw [hxm, hym]

instance {ε : Type u} {α : Type v} [DecidableEq ε] [DecidableEq α] :
    DecidableEq (Except ε α)
  | Except.error x, Except.error y =>
      if h : x = y then Decidable.isTrue (by rw [h])
      else Decidable.isFalse (fun hc => h (by injection hc))
  | Except.error x, Except.ok y => Decidable.isFalse (fun hc => Except.noConfusion hc)
  | Except.ok x, Except.error y => Decidable.isFalse (fun hc => Except.noConfusion hc)
  | Except.ok x, Except.ok y =>
      if h : x = y then Decidable.isTrue (by rw [h])
      else Decidable.isFalse (fun hc => h (by injection hc))

/-- C4, counterexample: a constant actual series predicted perfectly.  The
claim asserts R² = 1 for every `actual == predicted` pair, but the R²
formula of the spec (section 4.4) has a zero denominator here, so the
evaluator returns the undefined sentinel (`none`, i.e. NaN), not `1`. -/
theorem evaluate_constant_perfect_r2_undefined :
    evaluate [(5 : ℚ), 5] [5, 5]
      = Except.ok { residuals := [0, 0], mae := 0, mse := 0, r2 := none } ∧
    (none : Option ℚ) ≠ some 1 := by
  constructor
  · rw [evaluate]
    norm_num [y_residual, mean, sst]
  · decide

/-- C4 (amended): for equal-length sequences the evaluator succeeds with
`residual[i] = actual[i] − predicted[i]`, MAE = mean |residual| and RMSE =
sqrt(mean residual²); `actual == predicted` yields MAE = 0, RMSE = 0 and
R² = 1 *provided the actual series is not constant* (for a constant
series R² is the undefined NaN sentinel, per the R² definition); and
`actual = [9,10]` against `predicted = [8,8]` yields residuals `[1,2]`,
MAE = 3/2 and RMSE = sqrt(5/2). -/
theorem evaluate_metrics :
    (∀ a p : List ℚ, a.length = p.length →
      ∃ r, evaluate a p = Except.ok r ∧
        r.residuals = y_residual a p ∧
        r.mae = mean ((y_residual a p).map (fun x => |x|)) ∧
        rmse a p = Real.sqrt ((mean ((y_residual a p).map (fun x => x ^ 2)) : ℚ) : ℝ)) ∧
    (∀ a : List ℚ, (¬ ∀ x ∈ a, ∀ y ∈ a, x = y) →
      evaluate a a = Except.ok
        { residuals := List.replicate a.length 0, mae := 0, mse := 0, r2 := some 1 } ∧
      rmse a a = 0) ∧
    (evaluate [(9 : ℚ), 10] [8, 8]
        = Except.ok { residuals := [1, 2], mae := 3 / 2, mse := 5 / 2, r2 := some (-9) } ∧
      rmse [(9 : ℚ), 10] [8, 8] = Real.sqrt ((5 : ℝ) / 2)) := by
  refine ⟨?_, ?_, ?_, ?_⟩
  · intro a p h
    refine ⟨_, by rw [evaluate, if_pos h], rfl, rfl, rfl⟩
  · intro a h
    have hsst := sst_ne_zero_of_nonconstant h
    constructor
    · rw [evaluate, if_pos rfl]
      simp only [y_residual_self, Except.ok.injEq]
      congr 1
      · simp [List.map_replicate, mean_replicate_zero]
      · simp [List.map_replicate, mean_replicate_zero]
      · rw [if_neg hsst]
        simp [List.map_replicate, List.sum_replicate]
    · rw [rmse, y_residual_self]
      simp [List.map_replicate, mean_replicate_zero]
  · rw [evaluate]
    norm_num [y_residual, mean, sst, abs_of_pos]
  · rw [rmse]
    norm_num [y_residual, mean]

theorem evaluate_metrics_witness :
    evaluate [(1 : ℚ), 2] [1, 2]
      = Except.ok { residuals := List.replicate 2 0, mae := 0, mse := 0, r2 := some 1 } ∧
    rmse [(1 : ℚ), 2] [1, 2] = 0 := by
  have h := evaluate_metrics.2.1 [(1 : ℚ), 2]
    (fun hc => by have := hc 1 (by decide) 2 (by decide); norm_num at this)
  simpa using h

/-- C5: with sequences of different lengths the evaluator always fails
with `LengthMismatchError` and never returns a (partial) result. -/
theorem evaluate_length_mismatch (a p : List ℚ) (h : a.length ≠ p.length) :
    evaluate a p = Except.error EvalError.lengthMismatch := by
  rw [evaluate, if_neg h]

theorem evaluate_length_mismatch_witness :
    evaluate [(1 : ℚ), 2] [1] = Except.error EvalError.lengthMismatch :=
  evaluate_length_mismatch [(1 : ℚ), 2] [1] (by decide)

/-- C8: on a constant actual series (zero R² denominator) the evaluator
does not crash: it returns a full result whose R² is the undefined NaN
sentinel (`none`) while MAE and the squared-error mean are still computed
from the residuals; the caller sees the undefined R² explicitly. -/
theorem evaluate_constant_actual (a p : List ℚ) (c : ℚ)
    (hc : ∀ x ∈ a, x = c) (hl : a.length = p.length) :
    evaluate a p = Except.ok
      { residuals := y_residual a p
      , mae := mean ((y_residual a p).map (fun r => |r|))
      , mse := mean ((y_residual a p).map (fun r => r ^ 2))
      , r2 := none } := by
  rw [evaluate, if_pos hl]
  simp only [Except.ok.injEq]
  congr 1
  rw [if_pos (sst_constant hc)]

theorem evaluate_constant_actual_witness :
    evaluate [(5 : ℚ), 5] [4, 6] = Except.ok
      { residuals := y_residual [(5 : ℚ), 5] [4, 6]
      , mae := mean ((y_residual [(5 : ℚ), 5] [4, 6]).map (fun r => |r|))
      , mse := mean ((y_residual [(5 : ℚ), 5] [4, 6]).map (fun r => r ^ 2))
      , r2 := none } :=
  evaluate_constant_actual [(5 : ℚ), 5] [4, 6] 5 (by decide) (by decide)

/-! ### Forecast backend -/

/-- Failure mode of the forecast operation. -/
inductive BackendError where
  | horizonExceeded
deriving DecidableEq, Repr

/-- Modelled from the spec: a fitted forecasting model (the concrete model
search lives in the external AutoML service and is not in the source).
`maxHorizon` is the configured `max_horizon`, `f` the model's per-timestamp
point prediction, and `origin` the forecast origin recorded at fit time
(the last timestamp whose target was known during training). -/
structure FittedModel where
  maxHorizon : ℕ
  f : Int → ℚ
  origin : Int

/-- Last timestamp of a chronologically ordered frame (`0` for an empty
frame). -/
def lastTime (train : List Row) : Int :=
  ((train.map (fun r => r.t)).getLast?).getD 0

/-- Modelled from the spec: `fit` (spec section 4.3) trains on the history
and records the forecast origin — the last timestamp for which the target
is known, i.e. the last training timestamp. -/
def fit (train : List Row) (mh : ℕ) (g : Int → ℚ) : FittedModel :=
  { maxHorizon := mh, f := g, origin := lastTime train }

/-- The timestamps of the query whose target value is known (non-sentinel):
these seed the forecast as a known continuation. -/
def knownTimes (x : List Int) (yq : List (Option ℚ)) : List Int :=
  (x.zip yq).filterMap (fun p => if p.2.isSome then some p.1 else none)

/-- The effective forecast origin of a query: the recorded training
origin, pushed forward past every known (non-sentinel) target value in the
query. -/
def effOrigin (m : FittedModel) (x : List Int) (yq : List (Option ℚ)) : Int :=
  (knownTimes x yq).foldl max m.origin

/-- The requested forward timestamps: query rows whose target is the
unknown sentinel and whose timestamp lies strictly after the forecast
origin. -/
def futureTimes (m : FittedModel) (x : List Int) (yq : List (Option ℚ)) : List Int :=
  (x.zip yq).filterMap
    (fun p => if p.2.isNone && decide (effOrigin m x yq < p.1) then some p.1 else none)

/-- Modelled from the spec: `forecast` (spec section 4.3) returns the
minimal forward sequence — exactly one prediction per requested timestamp
strictly after the forecast origin — and fails with
`HorizonExceededError` when more than `max_horizon` forward steps are
requested. -/
def forecast (m : FittedModel) (x : List Int) (yq : List (Option ℚ)) :
    Except BackendError (List (Int × ℚ)) :=
  if m.maxHorizon < (futureTimes m x yq).length then
    Except.error BackendError.horizonExceeded
  else
    Except.ok ((futureTimes m x yq).map (fun t => (t, m.f t)))

/-- Modelled from the spec: `predict` (spec section 4.3) returns a value
for every row of its input, regardless of the forecast origin. -/
def predict (m : FittedModel) (x : List Int) : List (Int × ℚ) :=
  x.map (fun t => (t, m.f t))

/-- The notebook's test-set evaluation (section 4.3):
`y_pred_test = fitted_model.predict(X_test)` — it calls `predict`, not
`forecast`. -/
def y_pred_test (m : FittedModel) (x : List Int) : List (Int × ℚ) :=
  predict m x

/-- The notebook's AutoML settings (section 3.1): `"max_horizon": 20`. -/
def automl_max_horizon : ℕ := 20

/-- The notebook's query target (section 5):
`y_query = y_test.copy().astype(np.float); y_query.fill(np.nan)` — a copy
of the held-out target with every entry overwritten by the NaN sentinel. -/
def y_query (y : List (Option ℚ)) : List (Option ℚ) :=
  y.map (fun _ => none)

lemma knownTimes_of_all_none :
    ∀ (x : List Int) (yq : List (Option ℚ)), (∀ v ∈ yq, v = none) →
      knownTimes x yq = [] := by
  intro x
  induction x with
  | nil =>
    intro yq h
    rfl
  | cons a x ih =>
    intro yq h
    cases yq with
    | nil => rfl
    | cons v yq =>
      have hv : v = none := h v (List.mem_cons_self v yq)
      rw [knownTimes, List.zip_cons_cons, List.filterMap_cons]
      rw [hv]
      simpa [knownTimes] using ih yq (fun w hw => h w (List.mem_cons_of_mem v hw))

lemma filterMap_future_eq_self (o : Int) :
    ∀ (x : List Int) (yq : List (Option ℚ)), (∀ v ∈ yq, v = none) →
      x.length ≤ yq.length → (∀ t ∈ x, o < t) →
      (x.zip yq).filterMap
        (fun p => if p.2.isNone && decide (o < p.1) then some p.1 else none) = x := by
  intro x
  induction x with
  | nil =>
    intro yq h1 h2 h3
    rfl
  | cons a x ih =>
    intro yq h1 h2 h3
    cases yq with
    | nil => simp at h2
    | cons v yq =>
      have hv : v = none := h1 v (List.mem_cons_self v yq)
      have ha : o < a := h3 a (List.mem_cons_self a x)
      rw [List.zip_cons_cons, List.filterMap_cons, hv]
      simp only [Option.isNone_none, Bool.true_and, decide_eq_true_eq, ha, if_pos]
      rw [ih yq (fun w hw => h1 w (List.mem_cons_of_mem v hw))
        (by simpa using Nat.le_of_succ_le_succ h2)
        (fun t ht => h3 t (List.mem_cons_of_mem a ht))]

lemma futureTimes_all_none (m : FittedModel) (x : List Int) (yq : List (Option ℚ))
    (h1 : ∀ v ∈ yq, v = none) (h2 : x.length ≤ yq.length)
    (h3 : ∀ t ∈ x, effOrigin m x yq < t) :
    futureTimes m x yq = x :=
  filterMap_future_eq_self (effOrigin m x yq) x yq h1 h2 h3

/-- C7: `forecast` produces exactly one predicted value per requested
forward timestamp, never more than `max_horizon` of them; requesting more
forward steps than `max_horizon` fails with `HorizonExceededError` — in
particular 25 steps ahead of the origin with the notebook's
`max_horizon = 20` always fail. -/
theorem forecast_horizon_contract :
    (∀ (m : FittedModel) (x : List Int) (yq : List (Option ℚ)),
      m.maxHorizon < (futureTimes m x yq).length →
        forecast m x yq = Except.error BackendError.horizonExceeded) ∧
    (∀ (m : FittedModel) (x : List Int) (yq : List (Option ℚ)) (r : List (Int × ℚ)),
      forecast m x yq = Except.ok r →
        r.map Prod.fst = futureTimes m x yq ∧ r.length ≤ m.maxHorizon) ∧
    (∀ (g : Int → ℚ) (o : Int),
      forecast ⟨automl_max_horizon, g, o⟩
        ((List.range 25).map (fun i : ℕ => o + 1 + (i : Int)))
        (List.replicate 25 none) = Except.error BackendError.horizonExceeded) := by
  refine ⟨?_, ?_, ?_⟩
  · intro m x yq h
    rw [forecast, if_pos h]
  · intro m x yq r h
    rw [forecast] at h
    by_cases hc : m.maxHorizon < (futureTimes m x yq).length
    · rw [if_pos hc] at h
      exact absurd h (by simp)
    · rw [if_neg hc] at h
      have hr : r = (futureTimes m x yq).map (fun t => (t, m.f t)) := by
        injection h.symm
      constructor
      · rw [hr, List.map_map]
        exact List.map_id ..
      · rw [hr, List.length_map]
        exact Nat.le_of_not_lt hc
  · intro g o
    have hfut : futureTimes ⟨automl_max_horizon, g, o⟩
        ((List.range 25).map (fun i : ℕ => o + 1 + (i : Int)))
        (List.replicate 25 none) = (List.range 25).map (fun i : ℕ => o + 1 + (i : Int)) := by
      apply futureTimes_all_none
      · intro v hv
        exact List.eq_of_mem_replicate hv
      · simp
      · intro t ht
        rw [List.mem_map] at ht
        obtain ⟨i, _, hi⟩ := ht
        have ho : effOrigin ⟨automl_max_horizon, g, o⟩
            ((List.range 25).map (fun i : ℕ => o + 1 + (i : Int)))
            (List.replicate 25 none) = o := by
          rw [effOrigin, knownTimes_of_all_none _ _
            (fun v hv => List.eq_of_mem_replicate hv)]
          rfl
        rw [ho, ← hi]
        have : (0 : Int) ≤ (i : Int) := Int.natCast_nonneg i
        omega
    rw [forecast, hfut]
    rw [if_pos (by simp [automl_max_horizon])]

theorem forecast_horizon_contract_witness :
    forecast ⟨1, fun _ => (0 : ℚ), 0⟩ [1, 2] [none, none]
      = Except.error BackendError.horizonExceeded :=
  forecast_horizon_contract.1 ⟨1, fun _ => (0 : ℚ), 0⟩ [1, 2] [none, none] (by decide)

/-- The concrete fitted model used to exhibit the `predict` / `forecast`
divergence: forecast origin `5`, so timestamp `3` lies before the origin
and timestamp `6` after it. -/
def mC3 : FittedModel :=
  { maxHorizon := 20, f := fun _ => 0, origin := 5 }

/-- C3: the notebook's test-set evaluation (section 4.3) computes
`y_pred_test = fitted_model.predict(X_test)`, although the immediately
preceding markdown of the same section says the `forecast` function is to
be used instead of `predict`.  On a model with forecast origin `5` and
query timestamps `[3, 6]`, `predict` — and hence the harness's test
evaluation — returns a prediction at timestamp `3`, at/before the origin,
while `forecast` on the same fitted model and input returns a prediction
only for timestamp `6`: the two operations are distinct and the harness
conflates them. -/
theorem harness_test_eval_uses_predict :
    y_pred_test mC3 [3, 6] = [(3, 0), (6, 0)] ∧
    forecast mC3 [3, 6] [none, none] = Except.ok [(6, 0)] ∧
    y_pred_test mC3 [3, 6] ≠ (forecast mC3 [3, 6] [none, none]).toOption.getD [] := by
  refine ⟨rfl, ?_, ?_⟩ <;> decide

/-- C10: the query target handed to `forecast` in section 5 is the
NaN-filled copy of the held-out target: every entry is the unknown-target
sentinel, so no test-period actual is supplied, the query contributes no
known timestamps, and the effective forecast origin is exactly the last
training timestamp recorded at fit time. -/
theorem query_target_all_sentinel (y : List (Option ℚ)) (train : List Row)
    (mh : ℕ) (g : Int → ℚ) (x : List Int) :
    (∀ v ∈ y_query y, v = none) ∧
    knownTimes x (y_query y) = [] ∧
    effOrigin (fit train mh g) x (y_query y) = lastTime train := by
  have h1 : ∀ v ∈ y_query y, v = none := by
    intro v hv
    rw [y_query, List.mem_map] at hv
    obtain ⟨w, _, hw⟩ := hv
    exact hw.symm
  refine ⟨h1, knownTimes_of_all_none x (y_query y) h1, ?_⟩
  rw [effOrigin, knownTimes_of_all_none x (y_query y) h1]
  rfl

theorem query_target_all_sentinel_witness :
    (none : Option ℚ) = none ∧
    effOrigin (fit [⟨0, [], some 2⟩] 20 (fun _ => 0)) [1] (y_query [some 9])
      = lastTime [⟨0, [], some 2⟩] :=
  ⟨(query_target_all_sentinel [some 9] [⟨0, [], some 2⟩] 20 (fun _ => 0) [1]).1
      none (by decide),
    (query_target_all_sentinel [some 9] [⟨0, [], some 2⟩] 20 (fun _ => 0) [1]).2.2⟩

end Demo
